/-
Verification of the userspacefs repository against its specification.

Shallow embedding of the relevant parts of:
  - userspacefs/fuse_adapter.py        (FUSE adapter over the abstract FS)
  - userspacefs/__init__.py            (mount driver, SMB fallback)
  - userspacefs/macos_path_conversion.py (macOS SMB path-character shim)

Conventions used throughout:
  - Python ints are `Nat` (all values involved are non-negative);
    timestamps are `Int` seconds since the epoch.  `utctimestamp` composed
    with `datetime.utcfromtimestamp` is the identity on timestamps, so the
    timestamp chain is modelled directly on numeric values.
  - Fallible Python code (raising exceptions) becomes `Except`/`Option`.
  - Paths are lists of segments; the character content of a segment is a
    list of Unicode code points (`Nat`) where the shim rewrites them.
-/
import Mathlib

set_option autoImplicit false
set_option linter.unusedVariables false

namespace Userspacefs

namespace FuseAdapter

/-! ### File-type constants from Python's `stat` module -/

def S_IFIFO : Nat := 0o010000

def S_IFCHR : Nat := 0o020000

def S_IFDIR : Nat := 0o040000

def S_IFBLK : Nat := 0o060000

def S_IFREG : Nat := 0o100000

def S_IFLNK : Nat := 0o120000

def S_IFSOCK : Nat := 0o140000

def EPERM : Nat := 1

/-- The mask tested by `check_mode`:
`stat.S_IFCHR | stat.S_IFBLK | stat.S_IFIFO | stat.S_IFLNK | stat.S_IFSOCK`. -/
def checkModeMask : Nat := S_IFCHR ||| S_IFBLK ||| S_IFIFO ||| S_IFLNK ||| S_IFSOCK

/-- `check_mode` (fuse_adapter.py:39-41): raises `OSError(EPERM)` iff
`((S_IFCHR|S_IFBLK|S_IFIFO|S_IFLNK|S_IFSOCK) & mode) ==
 (S_IFCHR|S_IFBLK|S_IFIFO|S_IFLNK|S_IFSOCK)`. -/
def check_mode (mode : Nat) : Except Nat Unit :=
  if checkModeMask &&& mode = checkModeMask then
    Except.error EPERM
  else
    Except.ok ()

/-- The set of files of the backing filesystem, as the list of paths that
exist.  `open(path, O_WRONLY|O_CREAT)` creates the path when absent. -/
def createPath (files : List (List String)) (path : List String) :
    List (List String) :=
  if path ∈ files then files else path :: files

/-- `FUSEAdapter.mknod` (fuse_adapter.py:120-124): runs `check_mode(mode)`,
then `self._fs.open(path, os.O_WRONLY | os.O_CREAT).close()`. -/
def mknod (files : List (List String)) (path : List String) (mode : Nat) :
    Except Nat (List (List String)) :=
  match check_mode mode with
  | Except.error e => Except.error e
  | Except.ok _ => Except.ok (createPath files path)

/-! ### `_fs_stat_to_fuse_attrs` (fuse_adapter.py:75-96) -/

inductive FileType where
  | directory
  | regular
deriving DecidableEq

/-- A status record of the backing filesystem.  `getattr(st, field, default)`
on a possibly-missing attribute is modelled by an `Option` field. -/
structure FsStat where
  birthtime : Option Int
  mtime : Option Int
  ctime : Option Int
  atime : Option Int
  size : Nat
  type : FileType

structure FuseAttrs where
  st_birthtime : Int
  st_mtime : Int
  st_ctime : Int
  st_atime : Int
  st_size : Nat
  st_mode : Nat
  st_nlink : Nat
  st_uid : Nat
  st_gid : Nat
deriving DecidableEq

/-- `FUSEAdapter._fs_stat_to_fuse_attrs`: each timestamp defaults to the
previously resolved one (`birthtime` to epoch zero), size is copied, mode is
`S_IFDIR|0o777` for directories and `S_IFREG|0o777` otherwise, and
`st_nlink`/`st_uid`/`st_gid` are `1`/`os.getuid()`/`os.getgid()`. -/
def fs_stat_to_fuse_attrs (uid gid : Nat) (st : FsStat) : FuseAttrs :=
  let st_birthtime := st.birthtime.getD 0
  let st_mtime := st.mtime.getD st_birthtime
  let st_ctime := st.ctime.getD st_mtime
  let st_atime := st.atime.getD st_ctime
  { st_birthtime := st_birthtime
    st_mtime := st_mtime
    st_ctime := st_ctime
    st_atime := st_atime
    st_size := st.size
    st_mode := if st.type = FileType.directory then S_IFDIR ||| 0o777
               else S_IFREG ||| 0o777
    st_nlink := 1
    st_uid := uid
    st_gid := gid }

/-! ### `readdir` (fuse_adapter.py:170-173) -/

def S_IFMT : Nat := 0o170000

/-- One child yielded by an open directory handle: its name and its status
record. -/
structure DirEntry where
  name : String
  stat : FsStat

/-- An element of the Python list returned by `readdir`: either one of the
plain strings `'.'`/`'..'` or a `(name, attrs, 0)` tuple for a child. -/
inductive ReaddirItem where
  | special (s : String)
  | entry (name : String) (attrs : FuseAttrs) (off : Nat)
deriving DecidableEq

/-- `FUSEAdapter.readdir`: `list(itertools.chain(['.', '..'],
map(lambda x: (x.name, self._fs_stat_to_fuse_attrs(x), 0), f)))`. -/
def readdir (uid gid : Nat) (children : List DirEntry) : List ReaddirItem :=
  ReaddirItem.special "." :: ReaddirItem.special ".." ::
    children.map
      (fun x => ReaddirItem.entry x.name (fs_stat_to_fuse_attrs uid gid x.stat) 0)

def itemName : ReaddirItem → String
  | ReaddirItem.special s => s
  | ReaddirItem.entry n _ _ => n

/-! ### The handle table (`_save_file` / `_delete_file`, fuse_adapter.py:56-67) -/

/-- `fh in self._fh_to_file`: membership of a key in the table, which is
modelled as an association list id → resource. -/
def tblMem {α : Type} (tbl : List (Nat × α)) (k : Nat) : Bool :=
  tbl.any (fun p => p.1 == k)

/-- `self._fh_to_file[fh]`, as an `Option` (a missing key raises
`KeyError`). -/
def tblLookup {α : Type} (tbl : List (Nat × α)) (k : Nat) : Option α :=
  (tbl.find? (fun p => p.1 == k)).map Prod.snd

/-- A draw of `random.randint(0, 2 ** 32 - 1)`: any integer in the 32-bit
unsigned range, both endpoints inclusive. -/
def validDraw (n : Nat) : Bool := n ≤ 2 ^ 32 - 1

/-- The `while` loop of `_save_file`: keep drawing until the draw is not a
key of the table.  The draws are supplied as a list; `none` means the
modelled draws were exhausted with the loop still drawing. -/
def pickFresh {α : Type} (tbl : List (Nat × α)) : List Nat → Option Nat
  | [] => none
  | r :: rs => if tblMem tbl r then pickFresh tbl rs else some r

/-- `FUSEAdapter._save_file`: draw a fresh id and insert the resource under
it, returning the id and the updated table. -/
def save_file {α : Type} (tbl : List (Nat × α)) (draws : List Nat) (f : α) :
    Option (Nat × List (Nat × α)) :=
  (pickFresh tbl draws).map (fun r => (r, (r, f) :: tbl))

/-- `FUSEAdapter._delete_file`: `self._fh_to_file.pop(fh)` — returns the
stored resource and the table without that id, raising `KeyError` when the
id is not live. -/
def delete_file {α : Type} (tbl : List (Nat × α)) (fh : Nat) :
    Except Unit (α × List (Nat × α)) :=
  match tblLookup tbl fh with
  | none => Except.error ()
  | some f => Except.ok (f, tbl.filter (fun p => p.1 != fh))

/-- One operation on the handle table: an allocation (with its sequence of
random draws) or a release. -/
inductive TableOp (α : Type) where
  | save (draws : List Nat) (f : α)
  | delete (fh : Nat)

def opDraws {α : Type} : TableOp α → List Nat
  | TableOp.save draws _ => draws
  | TableOp.delete _ => []

/-- Apply one operation.  An allocation whose modelled draws are exhausted
has not inserted anything yet; a release of a dead id raises `KeyError` and
leaves the table unchanged. -/
def runOp {α : Type} (tbl : List (Nat × α)) : TableOp α → List (Nat × α)
  | TableOp.save draws f =>
    match save_file tbl draws f with
    | some (_, tbl2) => tbl2
    | none => tbl
  | TableOp.delete fh =>
    match delete_file tbl fh with
    | Except.ok (_, tbl2) => tbl2
    | Except.error _ => tbl

def runOps {α : Type} (ops : List (TableOp α)) (tbl : List (Nat × α)) :
    List (Nat × α) :=
  ops.foldl runOp tbl

def opsValid {α : Type} (ops : List (TableOp α)) : Bool :=
  ops.all (fun op => (opDraws op).all validDraw)

def keysNodup {α : Type} (tbl : List (Nat × α)) : Prop :=
  (tbl.map Prod.fst).Nodup

instance {α : Type} (tbl : List (Nat × α)) : Decidable (keysNodup tbl) :=
  inferInstanceAs (Decidable ((tbl.map Prod.fst).Nodup))

/-- What C4 states of a single allocation: the returned id was not live, it
came from the supplied draws, and the new table is the old one with exactly
the new binding added. -/
def SaveSpec : Prop :=
  ∀ (tbl : List (Nat × Nat)) (draws : List Nat) (f r : Nat)
    (tbl2 : List (Nat × Nat)),
    save_file tbl draws f = some (r, tbl2) →
    tblMem tbl r = false ∧ r ∈ draws ∧ tbl2 = (r, f) :: tbl

/-- What C4 states of a release of a live id: it returns exactly the stored
resource, afterwards the id is dead, every other id is untouched, and (under
distinct keys) exactly that one entry is gone. -/
def DeleteSpec : Prop :=
  ∀ (tbl : List (Nat × Nat)) (fh f : Nat) (tbl2 : List (Nat × Nat)),
    delete_file tbl fh = Except.ok (f, tbl2) →
    tblLookup tbl fh = some f ∧ tblLookup tbl2 fh = none ∧
    (∀ k, k ≠ fh → tblLookup tbl2 k = tblLookup tbl k) ∧
    (keysNodup tbl → tbl2.map Prod.fst = (tbl.map Prod.fst).erase fh)

/-- What C4 states of a dead id: releasing it or looking it up fails. -/
def MissSpec : Prop :=
  ∀ (tbl : List (Nat × Nat)) (fh : Nat), tblMem tbl fh = false →
    delete_file tbl fh = Except.error () ∧ tblLookup tbl fh = none

/-- The conclusion of C4, for a given operation sequence: after running the
sequence from the empty table the live ids are pairwise distinct and all in
the 32-bit unsigned range, and the single-operation properties hold. -/
def HandleTableConclusion (ops : List (TableOp Nat)) : Prop :=
  (keysNodup (runOps ops []) ∧
    ∀ k ∈ (runOps ops []).map Prod.fst, validDraw k = true) ∧
  SaveSpec ∧ DeleteSpec ∧ MissSpec

/-! ### The rename loop (`FUSEAdapter.rename`, fuse_adapter.py:187-199) -/

/-- The state of the backing filesystem for the rename loop: the existing
paths with their contents. -/
def fsLookup (st : List (String × Nat)) (p : String) : Option Nat :=
  (st.find? (fun q => q.1 == p)).map Prod.snd

def fsRemove (st : List (String × Nat)) (p : String) : List (String × Nat) :=
  st.filter (fun q => q.1 != p)

def fsInsert (st : List (String × Nat)) (p : String) (c : Nat) :
    List (String × Nat) :=
  (p, c) :: fsRemove st p

inductive FsErr where
  | fileExists
  | fileNotFound
deriving DecidableEq

/-- Specified behaviour of the backing `rename_noreplace`: raise
`FileExistsError` when the destination exists, `FileNotFoundError` when the
source is absent, otherwise move the source's contents to the
destination. -/
def rename_noreplace (st : List (String × Nat)) (old new : String) :
    Except FsErr (List (String × Nat)) :=
  if (fsLookup st new).isSome then Except.error FsErr.fileExists
  else
    match fsLookup st old with
    | none => Except.error FsErr.fileNotFound
    | some c => Except.ok (fsInsert (fsRemove st old) new c)

/-- Specified behaviour of the backing `unlink`: raise `FileNotFoundError`
when the path is absent, otherwise remove it. -/
def fsUnlink (st : List (String × Nat)) (p : String) :
    Except FsErr (List (String × Nat)) :=
  match fsLookup st p with
  | none => Except.error FsErr.fileNotFound
  | some _ => Except.ok (fsRemove st p)

/-- What a concurrent actor does to the destination during one loop
iteration: optionally recreate it (with some contents) before the rename
attempt, and optionally remove it again before the unlink. -/
structure Interference where
  recreate : Option Nat
  removeBeforeUnlink : Bool

inductive RenameOutcome where
  | done (st : List (String × Nat))
  | failed (e : FsErr)
  | running (st : List (String × Nat))

/-- The optional recreation of the destination by the concurrent actor at
the start of a loop iteration. -/
def applyRecreate (st : List (String × Nat)) (new : String) :
    Option Nat → List (String × Nat)
  | none => st
  | some c => fsInsert st new c

/-- `FUSEAdapter.rename`, one `Interference` consumed per loop iteration:
attempt `rename_noreplace`; on `FileExistsError` unlink the destination,
ignoring `FileNotFoundError`; on success stop; any other error propagates
out of the loop.  `running` reports the state when the modelled iterations
are exhausted with the loop still going. -/
def renameLoop (old new : String) :
    List Interference → List (String × Nat) → RenameOutcome
  | [], st => RenameOutcome.running st
  | i :: rest, st =>
    let st1 := applyRecreate st new i.recreate
    match rename_noreplace st1 old new with
    | Except.ok st2 => RenameOutcome.done st2
    | Except.error FsErr.fileExists =>
      let st2 := if i.removeBeforeUnlink then fsRemove st1 new else st1
      match fsUnlink st2 new with
      | Except.ok st3 => renameLoop old new rest st3
      | Except.error FsErr.fileNotFound => renameLoop old new rest st2
      | Except.error e => RenameOutcome.failed e
    | Except.error e => RenameOutcome.failed e

/-- The property C5 states of the rename loop, at source `old`, destination
`new`, prior source contents `c`: without interference the loop finishes
within two iterations with the source absent and the destination holding
`c`; under any interference schedule the loop never fails, and whenever it
finishes the same postcondition holds; and when the destination is
recreated between the unlink and the retry, the loop retries and still
finishes. -/
def RenameSpec (st : List (String × Nat)) (old new : String) (c : Nat) : Prop :=
  (∃ st2, renameLoop old new [⟨none, false⟩, ⟨none, false⟩] st =
      RenameOutcome.done st2 ∧
    fsLookup st2 old = none ∧ fsLookup st2 new = some c) ∧
  (∀ interf : List Interference,
    (∀ e, renameLoop old new interf st ≠ RenameOutcome.failed e) ∧
    (∀ st2, renameLoop old new interf st = RenameOutcome.done st2 →
      fsLookup st2 old = none ∧ fsLookup st2 new = some c)) ∧
  (∀ c2, ∃ st2,
    renameLoop old new [⟨some c2, false⟩, ⟨none, false⟩] st =
      RenameOutcome.done st2 ∧
    fsLookup st2 old = none ∧ fsLookup st2 new = some c)

/-! ### `chmod` / `utimens` (fuse_adapter.py:201-217) -/

/-- A call made on the backing filesystem, recorded as a trace event. -/
inductive FsEvent where
  | openEv (path : List String) (flags : Nat)
  | setFileTimes (atime mtime : Option Int)
  | closeEv
deriving DecidableEq

def O_RDONLY : Nat := 0

/-- `FsEvent.setFileTimes` is the only event that mutates backing state;
opening a file read-only and closing it do not. -/
def isMutating : FsEvent → Bool
  | FsEvent.setFileTimes _ _ => true
  | _ => false

/-- `FUSEAdapter.chmod` (fuse_adapter.py:201-202): the body is `return 0`;
no backing-filesystem call is made, hence the empty event trace. -/
def chmod (path : List String) (mode : Nat) : Nat × List FsEvent := (0, [])

/-- `FUSEAdapter.utimens` (fuse_adapter.py:204-217): if the backing
filesystem lacks `x_f_set_file_times` (`AttributeError`), return `0` with no
backing call; otherwise open the path `O_RDONLY`, call the setter with
`times[0]`/`times[1]` (or `None`/`None` when `times is None`), close the
handle, and return `0`. -/
def utimens (hasSetFileTimes : Bool) (path : List String)
    (times : Option (Int × Int)) : Nat × List FsEvent :=
  if hasSetFileTimes then
    (0, [FsEvent.openEv path O_RDONLY,
         FsEvent.setFileTimes (times.map Prod.fst) (times.map Prod.snd),
         FsEvent.closeEv])
  else
    (0, [])

end FuseAdapter

namespace Init

/-! ### Fallback port selection (`__init__.py`:117-125) -/

/-- Python's `random.randint(a, b)` draws an integer `n` with
`a ≤ n ≤ b`: both endpoints are inclusive. -/
def randintPossible (a b n : Nat) : Bool := a ≤ n && n ≤ b

def EADDRINUSE : Nat := 98

/-- Outcome of one `sock.bind((host, port))` attempt. -/
inductive BindResult where
  | ok
  | addrInUse
  | fatal (e : Nat)

/-- The bind-retry loop of `mount_and_run_fs` when `port is None`, run over
a finite prefix of the random draws: a successful bind returns the port, an
`OSError` with `errno == EADDRINUSE` retries with the next draw, and any
other error is re-raised.  `none` means the loop is still running after the
modelled draws. -/
def bindLoop (attempt : Nat → BindResult) : List Nat → Option (Except Nat Nat)
  | [] => none
  | r :: rs =>
    match attempt r with
    | BindResult.ok => some (Except.ok r)
    | BindResult.addrInUse => bindLoop attempt rs
    | BindResult.fatal e => some (Except.error e)

/-! ### Mount control flow (`mount_and_run_fs` / `simple_main`) -/

/-- The inputs that determine the control flow of `mount_and_run_fs` up to
the point where it binds a socket and creates the filesystem:
`fuseAvailable` is `run_fuse_mount is not None`, `fuseSucceeds` means the
FUSE mount returns instead of raising `RuntimeError`, `platformDarwin` is
`sys.platform == "darwin"`, and `serveResult` is whatever the SMB serving
path eventually returns. -/
structure MountArgs where
  fuseAvailable : Bool
  fuseSucceeds : Bool
  smbOnly : Bool
  smbNoMount : Bool
  platformDarwin : Bool
  serveResult : Int

/-- The externally visible steps of `mount_and_run_fs` that C9 talks
about. -/
inductive MountEvent where
  | fuseMount
  | bindSocket
  | createFs
deriving DecidableEq

inductive MountOutcome where
  | ok (code : Int)
  | mountError
deriving DecidableEq

/-- Control flow of `mount_and_run_fs` (__init__.py:76-232): attempt the
FUSE mount when not SMB-only and the kernel transport is available
(`smb_no_mount` implies SMB-only), returning 0 on success and falling
through on `RuntimeError`; then raise `MountError` when the platform cannot
auto-mount SMB and mounting was requested — before `socket()`/`bind` and
before `create_fs()`; otherwise bind a socket, create the filesystem and
serve. -/
def mount_and_run_fs (a : MountArgs) : MountOutcome × List MountEvent :=
  let smbOnly := a.smbOnly || a.smbNoMount
  if !smbOnly && a.fuseAvailable then
    if a.fuseSucceeds then (MountOutcome.ok 0, [MountEvent.fuseMount])
    else
      if !a.smbNoMount && !a.platformDarwin then
        (MountOutcome.mountError, [MountEvent.fuseMount])
      else
        (MountOutcome.ok a.serveResult,
         [MountEvent.fuseMount, MountEvent.bindSocket, MountEvent.createFs])
  else
    if !a.smbNoMount && !a.platformDarwin then
      (MountOutcome.mountError, [])
    else
      (MountOutcome.ok a.serveResult,
       [MountEvent.bindSocket, MountEvent.createFs])

/-- `simple_main` (__init__.py:329-340): return -1 when `mount_and_run_fs`
raises `MountError`, and its return value otherwise. -/
def simple_main (a : MountArgs) : Int :=
  match (mount_and_run_fs a).1 with
  | MountOutcome.mountError => -1
  | MountOutcome.ok r => r

/-- The conclusion of C9 for arguments `a` satisfying its premises: the run
raises `MountError` with neither a socket bound nor the filesystem created;
in general a `MountError` outcome never follows a bind or a create, and the
entry point maps `MountError` to -1 and passes any other result through. -/
def MountErrorSpec (a : MountArgs) : Prop :=
  (mount_and_run_fs a).1 = MountOutcome.mountError ∧
  MountEvent.bindSocket ∉ (mount_and_run_fs a).2 ∧
  MountEvent.createFs ∉ (mount_and_run_fs a).2 ∧
  (∀ b, (mount_and_run_fs b).1 = MountOutcome.mountError →
    MountEvent.bindSocket ∉ (mount_and_run_fs b).2 ∧
    MountEvent.createFs ∉ (mount_and_run_fs b).2) ∧
  (∀ b, (mount_and_run_fs b).1 = MountOutcome.mountError → simple_main b = -1) ∧
  (∀ b r, (mount_and_run_fs b).1 = MountOutcome.ok r → simple_main b = r)

/-! ### `SimpleSMBBackend.tree_connect` (__init__.py:63-66) -/

/-- `path.rsplit("\\", 1)[-1]`: the part of the string after the last
backslash, or the whole string when it has none. -/
def afterLastBackslash (s : List Char) : List Char :=
  (s.reverse.takeWhile (fun ch => ch != '\\')).reverse

/-- `str.upper()` applied code point by code point. -/
def upperChars (s : List Char) : List Char := s.map Char.toUpper

/-- `SimpleSMBBackend.tree_connect`: return the single backing filesystem
when the component after the last backslash of the presented path equals,
case-insensitively, that of the configured share path; otherwise raise
`KeyError`. -/
def tree_connect {α : Type} (configured : List Char) (fs : α)
    (path : List Char) : Except Unit α :=
  if upperChars (afterLastBackslash path) =
      upperChars (afterLastBackslash configured) then
    Except.ok fs
  else
    Except.error ()

end Init

namespace MacosPathConversion

/-- `REPLACE_MAP` (macos_path_conversion.py:27-39): the private-use-area
code points and the code points they decode to — `0xF020`-`0xF027` to the
illegal Windows characters and `0xF001`-`0xF01F` to the control characters
`0x01`-`0x1F`; `none` for every other code point. -/
def REPLACE_MAP (cp : Nat) : Option Nat :=
  if cp = 0xf020 then some 0x22
  else if cp = 0xf021 then some 0x2a
  else if cp = 0xf022 then some 0x2f
  else if cp = 0xf023 then some 0x3c
  else if cp = 0xf024 then some 0x3e
  else if cp = 0xf025 then some 0x3f
  else if cp = 0xf026 then some 0x5c
  else if cp = 0xf027 then some 0x7c
  else if 0xf001 ≤ cp ∧ cp ≤ 0xf01f then some (cp - 0xf000)
  else none

/-- `p.translate(REPLACE_MAP)` on one path segment (a list of code
points): code points in the map are replaced, all others unchanged. -/
def translateSegment (seg : List Nat) : List Nat :=
  seg.map (fun cp => (REPLACE_MAP cp).getD cp)

/-- `FileSystem._convert_path`: rebuild the path from its segments after
the root (`path.parts[1:]`), translating each. -/
def convert_path (parts : List (List Nat)) : List (List Nat) :=
  parts.map translateSegment

/-- A call on the path-translation shim with its path arguments; `other`
stands for any attribute the shim class does not define, reached through
`__getattr__`. -/
inductive FsCall where
  | openCall (p : List (List Nat)) (flags : Nat)
  | openDirectory (p : List (List Nat))
  | statCall (p : List (List Nat))
  | unlinkCall (p : List (List Nat))
  | mkdirCall (p : List (List Nat))
  | rmdirCall (p : List (List Nat))
  | renameNoreplace (o n : List (List Nat))
  | other (nm : String) (args : List (List (List Nat)))
deriving DecidableEq

/-- What the shim delegates to the backing filesystem for each call
(macos_path_conversion.py:48-71): the seven path-accepting methods convert
their path arguments, `__getattr__` forwards everything else unchanged. -/
def shimForward : FsCall → FsCall
  | FsCall.openCall p flags => FsCall.openCall (convert_path p) flags
  | FsCall.openDirectory p => FsCall.openDirectory (convert_path p)
  | FsCall.statCall p => FsCall.statCall (convert_path p)
  | FsCall.unlinkCall p => FsCall.unlinkCall (convert_path p)
  | FsCall.mkdirCall p => FsCall.mkdirCall (convert_path p)
  | FsCall.rmdirCall p => FsCall.rmdirCall (convert_path p)
  | FsCall.renameNoreplace o n =>
    FsCall.renameNoreplace (convert_path o) (convert_path n)
  | FsCall.other nm args => FsCall.other nm args

/-- The conclusion of C7 for a control-range index `i` and an unmapped code
point `cp`: the eight special mappings, the control-character mappings, the
identity on unmapped code points, per-segment translation, and the
delegation behaviour of every shim method. -/
def ShimSpec (i cp : Nat) : Prop :=
  (REPLACE_MAP 0xf020 = some 0x22 ∧ REPLACE_MAP 0xf021 = some 0x2a ∧
   REPLACE_MAP 0xf022 = some 0x2f ∧ REPLACE_MAP 0xf023 = some 0x3c ∧
   REPLACE_MAP 0xf024 = some 0x3e ∧ REPLACE_MAP 0xf025 = some 0x3f ∧
   REPLACE_MAP 0xf026 = some 0x5c ∧ REPLACE_MAP 0xf027 = some 0x7c) ∧
  REPLACE_MAP (0xf000 + i) = some i ∧
  translateSegment [cp] = [cp] ∧
  (∀ parts, convert_path parts = parts.map translateSegment) ∧
  (∀ p flags, shimForward (FsCall.openCall p flags) =
    FsCall.openCall (convert_path p) flags) ∧
  (∀ p, shimForward (FsCall.openDirectory p) =
    FsCall.openDirectory (convert_path p)) ∧
  (∀ p, shimForward (FsCall.statCall p) = FsCall.statCall (convert_path p)) ∧
  (∀ p, shimForward (FsCall.unlinkCall p) =
    FsCall.unlinkCall (convert_path p)) ∧
  (∀ p, shimForward (FsCall.mkdirCall p) = FsCall.mkdirCall (convert_path p)) ∧
  (∀ p, shimForward (FsCall.rmdirCall p) = FsCall.rmdirCall (convert_path p)) ∧
  (∀ o n, shimForward (FsCall.renameNoreplace o n) =
    FsCall.renameNoreplace (convert_path o) (convert_path n)) ∧
  (∀ nm args, shimForward (FsCall.other nm args) = FsCall.other nm args)

end MacosPathConversion

end Userspacefs

namespace Userspacefs

open FuseAdapter

/-- C1: the spec demands that any mode containing one of the
device/pipe/socket/symlink type bits is rejected with `EPERM`, but
`check_mode` only rejects a mode containing the *union* of all those bits:
a plain FIFO mode `S_IFIFO|0o644` passes the check and `mknod` goes on to
create the path. -/
theorem c1_fifo_mode_passes_check_mode :
    check_mode (S_IFIFO ||| 0o644) = Except.ok () ∧
    (S_IFIFO ||| 0o644) &&& S_IFIFO = S_IFIFO ∧
    mknod [] [String.mk [Char.ofNat 102]] (S_IFIFO ||| 0o644) =
      Except.ok [[String.mk [Char.ofNat 102]]] ∧
    (∀ mode : Nat, check_mode mode = Except.error EPERM ↔
      checkModeMask &&& mode = checkModeMask) := by
  refine ⟨by rfl, by decide, by rfl, fun mode => ?_⟩
  unfold check_mode
  split <;> simp_all

/-- C3: the attribute translator resolves timestamps along the chain
birthtime → epoch zero, mtime → birthtime, ctime → mtime, atime → ctime;
in particular a record with only `mtime` set gets `ctime = atime = mtime`,
and a record with none set gets all four fields equal to the epoch. -/
theorem c3_timestamp_fallback_chain :
    (∀ uid gid st,
      (fs_stat_to_fuse_attrs uid gid st).st_birthtime = st.birthtime.getD 0 ∧
      (fs_stat_to_fuse_attrs uid gid st).st_mtime =
        st.mtime.getD ((fs_stat_to_fuse_attrs uid gid st).st_birthtime) ∧
      (fs_stat_to_fuse_attrs uid gid st).st_ctime =
        st.ctime.getD ((fs_stat_to_fuse_attrs uid gid st).st_mtime) ∧
      (fs_stat_to_fuse_attrs uid gid st).st_atime =
        st.atime.getD ((fs_stat_to_fuse_attrs uid gid st).st_ctime)) ∧
    (∀ uid gid t sz ty,
      (fs_stat_to_fuse_attrs uid gid ⟨none, some t, none, none, sz, ty⟩).st_ctime = t ∧
      (fs_stat_to_fuse_attrs uid gid ⟨none, some t, none, none, sz, ty⟩).st_atime = t) ∧
    (∀ uid gid sz ty,
      (fs_stat_to_fuse_attrs uid gid ⟨none, none, none, none, sz, ty⟩).st_birthtime = 0 ∧
      (fs_stat_to_fuse_attrs uid gid ⟨none, none, none, none, sz, ty⟩).st_mtime = 0 ∧
      (fs_stat_to_fuse_attrs uid gid ⟨none, none, none, none, sz, ty⟩).st_ctime = 0 ∧
      (fs_stat_to_fuse_attrs uid gid ⟨none, none, none, none, sz, ty⟩).st_atime = 0) := by
  refine ⟨fun uid gid st => ?_, fun uid gid t sz ty => ?_, fun uid gid sz ty => ?_⟩ <;>
    simp [fs_stat_to_fuse_attrs]

/-- C2: the spec says every port candidate lies in `[60000, 65536)`, but the
code draws with `random.randint(60000, 2 ** 16)`, whose upper endpoint is
inclusive: `65536` is a possible candidate and is not a valid TCP port.  The
retry structure itself behaves as described: "address in use" retries with
the next draw, success returns the bound port, any other error propagates. -/
theorem c2_port_candidates_include_65536 :
    Init.randintPossible 60000 (2 ^ 16) 65536 = true ∧
    (2 ^ 16 : Nat) = 65536 ∧
    Init.bindLoop (fun _ => Init.BindResult.addrInUse) [60000, 60001] = none ∧
    Init.bindLoop
      (fun p => if p = 60001 then Init.BindResult.ok else Init.BindResult.addrInUse)
      [60000, 60001] = some (Except.ok 60001) ∧
    Init.bindLoop (fun _ => Init.BindResult.fatal 13) [60000, 60001] =
      some (Except.error 13) := by
  refine ⟨by decide, by decide, by rfl, by rfl, by rfl⟩

/-- C6: `readdir` returns `'.'`, then `'..'`, then one entry per child in
the backing handle's order, carrying the child's name and translated
attributes; for a root with one file `a.txt` of size 5 the names are exactly
`[".", "..", "a.txt"]`, with `st_size = 5` and `st_mode` a regular file. -/
theorem c6_readdir_listing :
    (∀ uid gid children, (readdir uid gid children).map itemName =
      "." :: ".." :: children.map DirEntry.name) ∧
    (∀ uid gid children, readdir uid gid children =
      ReaddirItem.special "." :: ReaddirItem.special ".." ::
        children.map (fun x =>
          ReaddirItem.entry x.name (fs_stat_to_fuse_attrs uid gid x.stat) 0)) ∧
    ((readdir 0 0 [⟨"a.txt", ⟨none, none, none, none, 5, FileType.regular⟩⟩]).map
        itemName = [".", "..", "a.txt"] ∧
      ReaddirItem.entry "a.txt"
          (fs_stat_to_fuse_attrs 0 0 ⟨none, none, none, none, 5, FileType.regular⟩) 0 ∈
        readdir 0 0 [⟨"a.txt", ⟨none, none, none, none, 5, FileType.regular⟩⟩] ∧
      (fs_stat_to_fuse_attrs 0 0 ⟨none, none, none, none, 5, FileType.regular⟩).st_size
        = 5 ∧
      (fs_stat_to_fuse_attrs 0 0
          ⟨none, none, none, none, 5, FileType.regular⟩).st_mode &&& S_IFMT
        = S_IFREG) := by
  refine ⟨fun uid gid children => ?_, fun uid gid children => rfl, ?_, ?_, by decide, by decide⟩
  · simp [readdir, itemName, List.map_map, Function.comp]
  · simp [readdir, itemName]
  · simp [readdir]

/-- C8: `chmod` returns 0 and makes no backing-filesystem call (state
unchanged); `utimens` without the optional `x_f_set_file_times` returns 0
with no mutating backing call, and with it present opens the path read-only,
invokes the setter with the given times, closes the handle and returns 0. -/
theorem c8_chmod_utimens_stubs :
    (∀ path mode, chmod path mode = (0, [])) ∧
    (∀ path times, utimens false path times = (0, [])) ∧
    (∀ path times, (utimens false path times).2.filter isMutating = []) ∧
    (∀ path times, utimens true path times =
      (0, [FsEvent.openEv path O_RDONLY,
           FsEvent.setFileTimes (times.map Prod.fst) (times.map Prod.snd),
           FsEvent.closeEv])) := by
  refine ⟨fun path mode => rfl, fun path times => rfl, fun path times => rfl,
    fun path times => rfl⟩

theorem tblMem_eq_false_iff {α : Type} (tbl : List (Nat × α)) (k : Nat) :
    tblMem tbl k = false ↔ k ∉ tbl.map Prod.fst := by
  rw [tblMem, ← Bool.not_eq_true, List.any_eq_true]
  simp only [beq_iff_eq, List.mem_map, not_exists, not_and]

theorem pickFresh_spec {α : Type} (tbl : List (Nat × α)) :
    ∀ (draws : List Nat) (r : Nat), pickFresh tbl draws = some r →
      tblMem tbl r = false ∧ r ∈ draws := by
  intro draws
  induction draws with
  | nil => intro r h; simp [pickFresh] at h
  | cons d rs ih =>
    intro r h
    rw [pickFresh] at h
    split at h
    · rcases ih r h with ⟨h1, h2⟩
      exact ⟨h1, List.mem_cons_of_mem _ h2⟩
    · cases h
      next hm => exact ⟨Bool.eq_false_iff.mpr hm, List.mem_cons_self _ _⟩

theorem save_file_spec {α : Type} (tbl : List (Nat × α)) (draws : List Nat)
    (f : α) (r : Nat) (tbl2 : List (Nat × α))
    (h : save_file tbl draws f = some (r, tbl2)) :
    tblMem tbl r = false ∧ r ∈ draws ∧ tbl2 = (r, f) :: tbl := by
  unfold save_file at h
  cases hp : pickFresh tbl draws with
  | none => rw [hp] at h; cases h
  | some r2 =>
    rw [hp] at h
    simp only [Option.map_some', Option.some.injEq, Prod.mk.injEq] at h
    obtain ⟨h3, h4⟩ := h
    subst h3
    subst h4
    rcases pickFresh_spec tbl draws r2 hp with ⟨h1, h2⟩
    exact ⟨h1, h2, rfl⟩

theorem tblLookup_filter_self {α : Type} (tbl : List (Nat × α)) (fh : Nat) :
    tblLookup (tbl.filter (fun p => p.1 != fh)) fh = none := by
  induction tbl with
  | nil => rfl
  | cons q tbl ih =>
    by_cases h : q.1 = fh
    · rw [List.filter_cons_of_neg (by simp [h])]
      exact ih
    · rw [List.filter_cons_of_pos (by simp [h])]
      unfold tblLookup at ih ⊢
      rw [List.find?_cons_of_neg _ (by simp [h])]
      exact ih

theorem tblLookup_filter_ne {α : Type} (tbl : List (Nat × α)) (fh k : Nat)
    (hk : k ≠ fh) :
    tblLookup (tbl.filter (fun p => p.1 != fh)) k = tblLookup tbl k := by
  unfold tblLookup
  induction tbl with
  | nil => rfl
  | cons q tbl ih =>
    by_cases h1 : q.1 = fh
    · rw [List.filter_cons_of_neg (by simp [h1]),
        List.find?_cons_of_neg _ (by
          simp only [beq_iff_eq]
          intro hc
          exact hk (by rw [← hc, h1]))]
      exact ih
    · rw [List.filter_cons_of_pos (by simp [h1])]
      by_cases h2 : q.1 = k
      · rw [List.find?_cons_of_pos _ (by simp [h2]),
          List.find?_cons_of_pos _ (by simp [h2])]
      · rw [List.find?_cons_of_neg _ (by simp [h2]),
          List.find?_cons_of_neg _ (by simp [h2])]
        exact ih

theorem map_fst_filter_eq_erase {α : Type} (tbl : List (Nat × α)) (fh : Nat)
    (hnd : keysNodup tbl) :
    (tbl.filter (fun p => p.1 != fh)).map Prod.fst =
      (tbl.map Prod.fst).erase fh := by
  induction tbl with
  | nil => rfl
  | cons q tbl ih =>
    rcases List.nodup_cons.mp hnd with ⟨hq, hnd2⟩
    by_cases h : q.1 = fh
    · have hall : tbl.filter (fun p => p.1 != fh) = tbl := by
        apply List.filter_eq_self.mpr
        intro p hp
        have : p.1 ≠ fh := fun hc => hq (h ▸ hc ▸ List.mem_map_of_mem Prod.fst hp)
        simpa using this
      simp [List.filter_cons, h, hall, List.erase_cons_head]
    · rw [List.filter_cons]
      have hq2 : (q.1 != fh) = true := by simpa using h
      rw [if_pos hq2]
      have hbeq : ¬ (((q.1 : Nat) == fh) = true) := by simp [h]
      rw [List.map_cons, List.map_cons, List.erase_cons_tail hbeq, ih hnd2]

theorem delete_file_spec {α : Type} (tbl : List (Nat × α)) (fh : Nat) (f : α)
    (tbl2 : List (Nat × α)) (h : delete_file tbl fh = Except.ok (f, tbl2)) :
    tblLookup tbl fh = some f ∧ tblLookup tbl2 fh = none ∧
    (∀ k, k ≠ fh → tblLookup tbl2 k = tblLookup tbl k) ∧
    (keysNodup tbl → tbl2.map Prod.fst = (tbl.map Prod.fst).erase fh) := by
  unfold delete_file at h
  cases hl : tblLookup tbl fh with
  | none => rw [hl] at h; cases h
  | some g =>
    rw [hl] at h
    cases h
    refine ⟨rfl, tblLookup_filter_self tbl fh, fun k hk => tblLookup_filter_ne tbl fh k hk,
      fun hnd => map_fst_filter_eq_erase tbl fh hnd⟩

theorem tblMem_false_lookup {α : Type} (tbl : List (Nat × α)) (fh : Nat)
    (h : tblMem tbl fh = false) : tblLookup tbl fh = none := by
  induction tbl with
  | nil => rfl
  | cons q tbl ih =>
    rw [tblMem] at h
    simp only [List.any_cons, Bool.or_eq_false_iff] at h
    rcases h with ⟨h1, h2⟩
    simpa [tblLookup, List.find?_cons, h1] using ih h2

theorem runOp_invariant {α : Type} (tbl : List (Nat × α)) (op : TableOp α)
    (hnd : keysNodup tbl) (hk : ∀ k ∈ tbl.map Prod.fst, validDraw k = true)
    (hv : ∀ d ∈ opDraws op, validDraw d = true) :
    keysNodup (runOp tbl op) ∧
      ∀ k ∈ (runOp tbl op).map Prod.fst, validDraw k = true := by
  cases op with
  | save draws f =>
    rw [runOp]
    cases hs : save_file tbl draws f with
    | none => exact ⟨hnd, hk⟩
    | some p =>
      rcases p with ⟨r, tbl2⟩
      rcases save_file_spec tbl draws f r tbl2 hs with ⟨h1, h2, h3⟩
      subst h3
      constructor
      · exact List.nodup_cons.mpr ⟨(tblMem_eq_false_iff tbl r).mp h1, hnd⟩
      · intro k hkmem
        rcases List.mem_cons.mp hkmem with h | h
        · exact h ▸ hv r h2
        · exact hk k h
  | delete fh =>
    rw [runOp]
    cases hd : delete_file tbl fh with
    | error e => exact ⟨hnd, hk⟩
    | ok p =>
      rcases p with ⟨f, tbl2⟩
      have htbl2 : tbl2 = tbl.filter (fun p => p.1 != fh) := by
        unfold delete_file at hd
        cases hl : tblLookup tbl fh with
        | none => rw [hl] at hd; cases hd
        | some g => rw [hl] at hd; cases hd; rfl
      subst htbl2
      have hsub : ((tbl.filter (fun p => p.1 != fh)).map Prod.fst).Sublist
          (tbl.map Prod.fst) := (List.filter_sublist tbl).map Prod.fst
      exact ⟨hnd.sublist hsub, fun k hkmem => hk k (hsub.mem hkmem)⟩

theorem runOps_invariant {α : Type} (ops : List (TableOp α)) :
    ∀ tbl : List (Nat × α), opsValid ops = true → keysNodup tbl →
      (∀ k ∈ tbl.map Prod.fst, validDraw k = true) →
      keysNodup (runOps ops tbl) ∧
        ∀ k ∈ (runOps ops tbl).map Prod.fst, validDraw k = true := by
  induction ops with
  | nil => intro tbl _ hnd hk; exact ⟨hnd, hk⟩
  | cons op ops ih =>
    intro tbl hv hnd hk
    rw [opsValid, List.all_cons, Bool.and_eq_true] at hv
    rcases hv with ⟨hv1, hv2⟩
    have hop := runOp_invariant tbl op hnd hk
      (fun d hd => by
        have := List.all_eq_true.mp hv1 d hd
        simpa using this)
    exact ih (runOp tbl op) hv2 hop.1 hop.2

/-- C4: over any sequence of allocations and releases from the empty table,
live ids stay pairwise distinct and within the 32-bit unsigned range; an
allocation returns a fresh id taken from its draws and adds exactly that
binding; a release of a live id returns its resource and removes exactly
that entry; a release or lookup of a dead id fails. -/
theorem c4_handle_table_ops (ops : List (TableOp Nat))
    (hv : opsValid ops = true) : HandleTableConclusion ops := by
  refine ⟨runOps_invariant ops [] hv (by simp [keysNodup]) (by simp), ?_, ?_, ?_⟩
  · exact fun tbl draws f r tbl2 h => save_file_spec tbl draws f r tbl2 h
  · exact fun tbl fh f tbl2 h => delete_file_spec tbl fh f tbl2 h
  · intro tbl fh h
    refine ⟨?_, tblMem_false_lookup tbl fh h⟩
    unfold delete_file
    rw [tblMem_false_lookup tbl fh h]

/-- Witness for C4 at the concrete operation sequence
`[save [5] 10, save [5, 7] 20, delete 5]`. -/
theorem c4_handle_table_ops_witness :
    opsValid ([TableOp.save [5] 10, TableOp.save [5, 7] 20,
      TableOp.delete 5] : List (TableOp Nat)) = true ∧
    HandleTableConclusion
      [TableOp.save [5] 10, TableOp.save [5, 7] 20, TableOp.delete 5] :=
  ⟨by decide,
    c4_handle_table_ops
      [TableOp.save [5] 10, TableOp.save [5, 7] 20, TableOp.delete 5]
      (by decide)⟩

theorem fsLookup_fsRemove_self (st : List (String × Nat)) (p : String) :
    fsLookup (fsRemove st p) p = none := by
  unfold fsRemove
  induction st with
  | nil => rfl
  | cons q st ih =>
    by_cases h : q.1 = p
    · rw [List.filter_cons_of_neg (by simp [h])]
      exact ih
    · rw [List.filter_cons_of_pos (by simp [h])]
      unfold fsLookup at ih ⊢
      rw [List.find?_cons_of_neg _ (by simp [h])]
      exact ih

theorem fsLookup_fsRemove_ne (st : List (String × Nat)) (p q : String)
    (hq : q ≠ p) : fsLookup (fsRemove st p) q = fsLookup st q := by
  unfold fsRemove fsLookup
  induction st with
  | nil => rfl
  | cons x st ih =>
    by_cases h1 : x.1 = p
    · rw [List.filter_cons_of_neg (by simp [h1]),
        List.find?_cons_of_neg _ (by
          simp only [beq_iff_eq]
          intro hc
          exact hq (by rw [← hc, h1]))]
      exact ih
    · rw [List.filter_cons_of_pos (by simp [h1])]
      by_cases h2 : x.1 = q
      · rw [List.find?_cons_of_pos _ (by simp [h2]),
          List.find?_cons_of_pos _ (by simp [h2])]
      · rw [List.find?_cons_of_neg _ (by simp [h2]),
          List.find?_cons_of_neg _ (by simp [h2])]
        exact ih

theorem fsLookup_fsInsert_self (st : List (String × Nat)) (p : String)
    (c : Nat) : fsLookup (fsInsert st p c) p = some c := by
  unfold fsInsert fsLookup
  rw [List.find?_cons_of_pos _ (by simp)]
  rfl

theorem fsLookup_fsInsert_ne (st : List (String × Nat)) (p q : String)
    (c : Nat) (hq : q ≠ p) : fsLookup (fsInsert st p c) q = fsLookup st q := by
  have h2 : fsLookup (fsRemove st p) q = fsLookup st q :=
    fsLookup_fsRemove_ne st p q hq
  unfold fsInsert fsLookup
  rw [List.find?_cons_of_neg _ (by
    simp only [beq_iff_eq]
    intro hc
    exact hq hc.symm)]
  exact h2

theorem fsLookup_applyRecreate_old (st : List (String × Nat))
    (old new : String) (rec : Option Nat) (hne : old ≠ new) :
    fsLookup (applyRecreate st new rec) old = fsLookup st old := by
  cases rec with
  | none => rfl
  | some c2 => exact fsLookup_fsInsert_ne st new old c2 hne

theorem renameLoop_cons_dest_exists (old new : String) (i : Interference)
    (rest : List Interference) (st : List (String × Nat)) (d : Nat)
    (h2 : fsLookup (applyRecreate st new i.recreate) new = some d) :
    renameLoop old new (i :: rest) st =
      renameLoop old new rest (fsRemove (applyRecreate st new i.recreate) new) := by
  have hr : rename_noreplace (applyRecreate st new i.recreate) old new =
      Except.error FsErr.fileExists := by
    rw [rename_noreplace, h2]
    rfl
  cases hrm : i.removeBeforeUnlink with
  | false =>
    have hu : fsUnlink (applyRecreate st new i.recreate) new =
        Except.ok (fsRemove (applyRecreate st new i.recreate) new) := by
      rw [fsUnlink, h2]
    simp only [renameLoop, hr, hrm, hu, if_false, Bool.false_eq_true]
  | true =>
    have h3 : fsLookup (fsRemove (applyRecreate st new i.recreate) new) new =
        none := fsLookup_fsRemove_self _ _
    have hu : fsUnlink (fsRemove (applyRecreate st new i.recreate) new) new =
        Except.error FsErr.fileNotFound := by
      rw [fsUnlink, h3]
    simp only [renameLoop, hr, hrm, hu, if_true]

theorem renameLoop_cons_dest_absent (old new : String) (i : Interference)
    (rest : List Interference) (st : List (String × Nat)) (c : Nat)
    (h2 : fsLookup (applyRecreate st new i.recreate) new = none)
    (hold1 : fsLookup (applyRecreate st new i.recreate) old = some c) :
    renameLoop old new (i :: rest) st =
      RenameOutcome.done
        (fsInsert (fsRemove (applyRecreate st new i.recreate) old) new c) := by
  have hr : rename_noreplace (applyRecreate st new i.recreate) old new =
      Except.ok
        (fsInsert (fsRemove (applyRecreate st new i.recreate) old) new c) := by
    rw [rename_noreplace, h2, hold1]
    rfl
  simp only [renameLoop, hr]

theorem renameLoop_inv (old new : String) (c : Nat) (hne : old ≠ new) :
    ∀ (interf : List Interference) (st : List (String × Nat)),
      fsLookup st old = some c →
      (∀ e, renameLoop old new interf st ≠ RenameOutcome.failed e) ∧
      (∀ st2, renameLoop old new interf st = RenameOutcome.done st2 →
        fsLookup st2 old = none ∧ fsLookup st2 new = some c) ∧
      (∀ st2, renameLoop old new interf st = RenameOutcome.running st2 →
        fsLookup st2 old = some c) := by
  intro interf
  induction interf with
  | nil =>
    intro st hold
    refine ⟨fun e h => by simp [renameLoop] at h,
      fun st2 h => by simp [renameLoop] at h, fun st2 h => ?_⟩
    have heq : st = st2 := by
      rw [renameLoop] at h
      injection h
    exact heq ▸ hold
  | cons i rest ih =>
    intro st hold
    have hold1 : fsLookup (applyRecreate st new i.recreate) old = some c := by
      rw [fsLookup_applyRecreate_old st old new i.recreate hne]
      exact hold
    cases h2 : fsLookup (applyRecreate st new i.recreate) new with
    | some d =>
      have heq := renameLoop_cons_dest_exists old new i rest st d h2
      have hold3 :
          fsLookup (fsRemove (applyRecreate st new i.recreate) new) old =
            some c := by
        rw [fsLookup_fsRemove_ne _ new old hne]
        exact hold1
      rcases ih (fsRemove (applyRecreate st new i.recreate) new) hold3 with
        ⟨ha, hb, hc2⟩
      exact ⟨fun e h => ha e (heq.symm.trans h),
        fun st2 h => hb st2 (heq.symm.trans h),
        fun st2 h => hc2 st2 (heq.symm.trans h)⟩
    | none =>
      have heq := renameLoop_cons_dest_absent old new i rest st c h2 hold1
      refine ⟨fun e h => ?_, fun st2 h => ?_, fun st2 h => ?_⟩
      · have hcon := heq.symm.trans h
        simp at hcon
      · have hcon := heq.symm.trans h
        have hst2 :
            fsInsert (fsRemove (applyRecreate st new i.recreate) old) new c =
              st2 := by injection hcon
        rw [← hst2]
        constructor
        · rw [fsLookup_fsInsert_ne _ new old c hne]
          exact fsLookup_fsRemove_self _ _
        · exact fsLookup_fsInsert_self _ _ _
      · have hcon := heq.symm.trans h
        simp at hcon

theorem renameLoop_two_done (st : List (String × Nat)) (old new : String)
    (c : Nat) (hold : fsLookup st old = some c) (hne : old ≠ new) :
    ∃ st2, renameLoop old new [⟨none, false⟩, ⟨none, false⟩] st =
      RenameOutcome.done st2 := by
  cases h2 : fsLookup st new with
  | none =>
    exact ⟨_, renameLoop_cons_dest_absent old new ⟨none, false⟩ _ st c h2 hold⟩
  | some d =>
    rw [renameLoop_cons_dest_exists old new ⟨none, false⟩ _ st d h2]
    have h3 : fsLookup (fsRemove st new) new = none :=
      fsLookup_fsRemove_self st new
    have hold3 : fsLookup (fsRemove st new) old = some c := by
      rw [fsLookup_fsRemove_ne st new old hne]
      exact hold
    exact ⟨_,
      renameLoop_cons_dest_absent old new ⟨none, false⟩ [] (fsRemove st new) c
        h3 hold3⟩

theorem renameLoop_recreate_done (st : List (String × Nat)) (old new : String)
    (c c2 : Nat) (hold : fsLookup st old = some c) (hne : old ≠ new) :
    ∃ st2, renameLoop old new [⟨some c2, false⟩, ⟨none, false⟩] st =
      RenameOutcome.done st2 := by
  have h2 : fsLookup (applyRecreate st new (some c2)) new = some c2 :=
    fsLookup_fsInsert_self st new c2
  rw [renameLoop_cons_dest_exists old new ⟨some c2, false⟩ _ st c2 h2]
  have h3 : fsLookup (fsRemove (applyRecreate st new (some c2)) new) new =
      none := fsLookup_fsRemove_self _ _
  have hold3 :
      fsLookup (fsRemove (applyRecreate st new (some c2)) new) old =
        some c := by
    rw [fsLookup_fsRemove_ne _ new old hne]
    rw [fsLookup_applyRecreate_old st old new (some c2) hne]
    exact hold
  exact ⟨_,
    renameLoop_cons_dest_absent old new ⟨none, false⟩ []
      (fsRemove (applyRecreate st new (some c2)) new) c h3 hold3⟩

/-- C5: the rename loop emulates replace-on-rename: with no interference it
finishes with the source absent and the destination holding the source's
prior contents; under any interference schedule it never fails and any
finish satisfies the same postcondition; recreating the destination between
the unlink and the retry only makes the loop retry, and it still
finishes. -/
theorem c5_rename_replace_emulation (st : List (String × Nat))
    (old new : String) (c : Nat) (hold : fsLookup st old = some c)
    (hne : old ≠ new) : RenameSpec st old new c := by
  have hinv := renameLoop_inv old new c hne
  refine ⟨?_, fun interf =>
    ⟨(hinv interf st hold).1, (hinv interf st hold).2.1⟩, ?_⟩
  · rcases renameLoop_two_done st old new c hold hne with ⟨st2, h⟩
    exact ⟨st2, h, (hinv _ st hold).2.1 st2 h⟩
  · intro c2
    rcases renameLoop_recreate_done st old new c c2 hold hne with ⟨st2, h⟩
    exact ⟨st2, h, (hinv _ st hold).2.1 st2 h⟩

/-- Witness for C5 on the concrete state `[("a", 7), ("b", 3)]`, renaming
`"a"` over the pre-existing `"b"`. -/
theorem c5_rename_replace_emulation_witness :
    fsLookup [("a", 7), ("b", 3)] "a" = some 7 ∧ "a" ≠ "b" ∧
    RenameSpec [("a", 7), ("b", 3)] "a" "b" 7 :=
  ⟨by rfl, by decide,
    c5_rename_replace_emulation [("a", 7), ("b", 3)] "a" "b" 7 (by rfl)
      (by decide)⟩

/-- C7: every path-accepting shim method rewrites each path segment after
the root through `REPLACE_MAP` — the eight special code points to their
Windows-illegal characters, `0xF001`-`0xF01F` to `0x01`-`0x1F`, all other
code points unchanged — and every other operation is delegated unchanged. -/
theorem c7_shim_path_translation (i cp : Nat) (h1 : 1 ≤ i) (h2 : i ≤ 0x1f)
    (hcp : MacosPathConversion.REPLACE_MAP cp = none) :
    MacosPathConversion.ShimSpec i cp := by
  refine ⟨by decide, ?_, ?_, fun parts => rfl, fun p flags => rfl, fun p => rfl,
    fun p => rfl, fun p => rfl, fun p => rfl, fun p => rfl, fun o n => rfl,
    fun nm args => rfl⟩
  · interval_cases i <;> rfl
  · simp [MacosPathConversion.translateSegment, hcp]

/-- Witness for C7 at `i = 5` (so `0xF005 ↦ 0x05`) and the unmapped code
point `65`. -/
theorem c7_shim_path_translation_witness :
    1 ≤ 5 ∧ 5 ≤ 0x1f ∧ MacosPathConversion.REPLACE_MAP 65 = none ∧
    MacosPathConversion.ShimSpec 5 65 :=
  ⟨by decide, by decide, by decide,
    c7_shim_path_translation 5 65 (by decide) (by decide) (by decide)⟩

/-- C9: when the kernel transport is unavailable or SMB is forced, the
platform cannot auto-mount a share, and no-mount was not requested,
`mount_and_run_fs` raises `MountError` without binding a socket or creating
the filesystem; `simple_main` returns -1 exactly on `MountError` and the
run's result otherwise. -/
theorem c9_mount_error_flow (a : Init.MountArgs)
    (h1 : a.fuseAvailable = false ∨ a.smbOnly = true)
    (h2 : a.platformDarwin = false) (h3 : a.smbNoMount = false) :
    Init.MountErrorSpec a := by
  refine ⟨?_, ?_, ?_, fun b => ?_, fun b => ?_, fun b r => ?_⟩
  · rcases h1 with h | h <;> simp [Init.mount_and_run_fs, h, h2, h3]
  · rcases h1 with h | h <;> simp [Init.mount_and_run_fs, h, h2, h3]
  · rcases h1 with h | h <;> simp [Init.mount_and_run_fs, h, h2, h3]
  · rcases b with ⟨bfa, bfs, bso, bsnm, bpd, bsr⟩
    cases bfa <;> cases bfs <;> cases bso <;> cases bsnm <;> cases bpd <;>
      simp [Init.mount_and_run_fs]
  · rcases b with ⟨bfa, bfs, bso, bsnm, bpd, bsr⟩
    cases bfa <;> cases bfs <;> cases bso <;> cases bsnm <;> cases bpd <;>
      simp [Init.mount_and_run_fs, Init.simple_main]
  · intro hb
    unfold Init.simple_main
    rw [hb]

/-- Witness for C9 with the kernel transport unavailable, a non-darwin
platform and mounting requested. -/
theorem c9_mount_error_flow_witness :
    ((Init.MountArgs.mk false false false false false 0).fuseAvailable = false ∨
      (Init.MountArgs.mk false false false false false 0).smbOnly = true) ∧
    (Init.MountArgs.mk false false false false false 0).platformDarwin = false ∧
    (Init.MountArgs.mk false false false false false 0).smbNoMount = false ∧
    Init.MountErrorSpec (Init.MountArgs.mk false false false false false 0) :=
  ⟨Or.inl rfl, rfl, rfl,
    c9_mount_error_flow (Init.MountArgs.mk false false false false false 0)
      (Or.inl rfl) rfl rfl⟩

/-- C10: `tree_connect` returns the single backing filesystem exactly when
the component after the last backslash of the presented path equals,
case-insensitively, that of the configured share path, and raises
`KeyError` for every other path. -/
theorem c10_tree_connect_match {α : Type} (configured : List Char) (fs : α)
    (path : List Char) :
    (Init.tree_connect configured fs path = Except.ok fs ↔
      Init.upperChars (Init.afterLastBackslash path) =
        Init.upperChars (Init.afterLastBackslash configured)) ∧
    (Init.tree_connect configured fs path = Except.error () ↔
      ¬ Init.upperChars (Init.afterLastBackslash path) =
        Init.upperChars (Init.afterLastBackslash configured)) := by
  unfold Init.tree_connect
  split
  · constructor <;> constructor <;> intro h <;> simp_all
  · constructor <;> constructor <;> intro h <;> simp_all

end Userspacefs
